import Mathlib

/-
Verification of the package recognition and assembly core of the
scancode-toolkit repository (src/packagedcode: __init__.py, about.py,
bower.py, cargo.py).

Embedding conventions:
 * Byte-level parsing of TOML / JSON / YAML is an excluded collaborator
   (spec sections 1 and 6), so each handler's `parse` is embedded as a
   function from the already-decoded document value (the output of
   `toml.load` / `json.load` / `saneyaml.load`) to a list of PackageData
   records, mirroring the Python field extraction line by line.
 * The codebase tree is an explicit list of Resource records addressed by
   path; Python's in-place `for_packages.append` + `save(codebase)` becomes
   a pure update of the resource with that path.
 * Python generator bodies are total functions returning
   `Except PyErr (List AssembledItem × Codebase)`: the engine consumes each
   generator fully, so an exception raised mid-iteration is modelled as the
   whole call erroring.
 * `packagedcode/models.py` is not part of the provided sources; the pieces
   of it that the claims depend on (PackageData.purl, Package minting and
   package_uid, Dependency.from_dependent_packages, Resource.walk, the
   default DatafileHandler.assemble) are modelled from the spec and marked
   `Modelled from the spec:` in their doc comments.
 * License detection / normalization (declared_license, license_expression,
   compute_normalized_license) and the regex-based cargo Party extraction
   are excluded collaborators untouched by every claim; those fields are
   not modelled.
-/

/-- Python string helper: `suffix.data.isSuffixOf s.data` models
`str.endswith(suffix)` on decoded strings. -/
def strEndsWith (s suf : String) : Bool :=
  suf.data.isSuffixOf s.data

/-- Python string helper modelling `str.startswith(p)` over decoded strings;
used only for the path-hierarchy test of the modelled subtree walk. -/
def strStartsWith (s p : String) : Bool :=
  p.data.isPrefixOf s.data

/-- A named actor attached to a PackageData (models.Party). -/
structure Party where
  ptype : Option String := none
  name : Option String := none
  email : Option String := none
  url : Option String := none
  role : String := ""
deriving DecidableEq, Repr

/-- The models.party_person constant used by about.py and cargo.py. -/
def party_person : String := "person"

/-- One declared dependency edge extracted from a manifest
(models.DependentPackage).  Field defaults mirror the attrs defaults the
source relies on when it omits arguments (bower.py omits `is_resolved`). -/
structure DependentPackage where
  purl : Option String := none
  extracted_requirement : Option String := none
  scope : String := ""
  is_runtime : Bool := true
  is_optional : Bool := false
  is_resolved : Bool := false
deriving DecidableEq, Repr

/-- The handler-produced record of everything extracted from one recognized
file (models.PackageData), restricted to the fields the source files under
src/ actually read or write. -/
structure PackageData where
  datasource_id : Option String := none
  type : Option String := none
  name : Option String := none
  version : Option String := none
  primary_language : Option String := none
  description : Option String := none
  keywords : List String := []
  parties : List Party := []
  homepage_url : Option String := none
  download_url : Option String := none
  vcs_url : Option String := none
  repository_homepage_url : Option String := none
  repository_download_url : Option String := none
  api_data_url : Option String := none
  copyright : Option String := none
  dependencies : List DependentPackage := []
  extra_data_about_resource : Option String := none
deriving DecidableEq, Repr

/-- PackageURL(type=ty, name=nm, version=v).to_string() for the simple
namespace-free, qualifier-free purls built by the three handlers. -/
def purlString (ty nm : String) (version : Option String) : String :=
  "pkg:" ++ ty ++ "/" ++ nm ++ (match version with | some v => "@" ++ v | none => "")

/-- Modelled from the spec: `PackageData.purl` (models.py is not under
src/).  Spec section 3: a purl identifies a package by type, namespace,
name, version; minting requires at least a name (section 4.3 step 1).  The
handlers under src/ never set a namespace or qualifiers, so those are
omitted. -/
def PackageData.purl (pd : PackageData) : Option String :=
  match pd.type, pd.name with
  | some t, some n => some (purlString t n pd.version)
  | _, _ => none

/-- A minted, identified package instance (models.Package), restricted to
identity fields. -/
structure Package where
  purl : String
  package_uid : String
  datafile_paths : List String := []
deriving DecidableEq, Repr

/-- Modelled from the spec: `Package.from_package_data` (models.py is not
under src/).  Spec section 3: the package_uid is "built from its
package-URL plus a disambiguating qualifier when multiple identical-purl
packages occur in one scan"; the datafile path serves as the deterministic
disambiguator here.  cargo.py passes the package data by keyword
`cargo_data=` and about.py by `package_data=`; the signature of the missing
models.py function cannot be established from src/, so the call is
modelled as succeeding with the given data in both spellings. -/
def Package.from_package_data (pd : PackageData) (datafile_path : String) : Package :=
  let pu := pd.purl.getD ""
  { purl := pu
    package_uid := pu ++ "?uid=" ++ datafile_path
    datafile_paths := [datafile_path] }

/-- A Dependency record as emitted by assembly (models.Dependency):
the DependentPackage fields plus the declaring file's path and
datasource_id and the owning package_uid (nullable). -/
structure Dependency where
  purl : Option String
  extracted_requirement : Option String
  scope : String
  is_runtime : Bool
  is_optional : Bool
  is_resolved : Bool
  datafile_path : String
  datasource_id : Option String
  package_uid : Option String
deriving DecidableEq, Repr

/-- Modelled from the spec: `Dependency.from_dependent_packages`
(models.py is not under src/).  Spec sections 3 and 4.3 step 4: every
DependentPackage entry becomes one Dependency carrying the declaring
datafile path and datasource_id and the owning package_uid, which is null
when no Package was minted. -/
def Dependency.from_dependent_packages (dps : List DependentPackage)
    (datafile_path : String) (datasource_id : Option String)
    (package_uid : Option String) : List Dependency :=
  dps.map fun dp =>
    { purl := dp.purl
      extracted_requirement := dp.extracted_requirement
      scope := dp.scope
      is_runtime := dp.is_runtime
      is_optional := dp.is_optional
      is_resolved := dp.is_resolved
      datafile_path := datafile_path
      datasource_id := datasource_id
      package_uid := package_uid }

/-- One node of the scanned tree (resource in the codebase). -/
structure Resource where
  path : String
  name : String
  is_file : Bool := true
  parent_path : Option String := none
  for_packages : List String := []
  package_data : Option PackageData := none
deriving DecidableEq, Repr

/-- The materialized tree: an arena of Resource records addressed by path. -/
structure Codebase where
  resources : List Resource
deriving DecidableEq, Repr

/-- First resource with the given path (path lookup into the arena). -/
def firstAt (cb : Codebase) (p : String) : Option Resource :=
  cb.resources.find? (fun r => decide (r.path = p))

/-- Resource.parent(codebase): the resource at this node's parent path. -/
def parentOf (cb : Codebase) (r : Resource) : Option Resource :=
  r.parent_path.bind (firstAt cb)

/-- Resource.children(codebase) of a directory: resources whose parent
path is the directory's path, in arena order. -/
def childrenOf (cb : Codebase) (dir : Resource) : List Resource :=
  cb.resources.filter (fun r => decide (r.parent_path = some dir.path))

/-- Whether `p` lies strictly below directory `dirPath` in the tree. -/
def isUnderDir (dirPath p : String) : Bool :=
  strStartsWith p (dirPath ++ "/")

/-- Modelled from the spec: `Resource.walk(codebase)` over a directory
(models.py is not under src/).  Spec section 4.3 step 2: "walk every
resource under the manifest's parent directory (inclusive)", so the
directory itself and everything below it, in arena order. -/
def parentSubtree (cb : Codebase) (dir : Resource) : List Resource :=
  cb.resources.filter (fun r => decide (r.path = dir.path) || isUnderDir dir.path r.path)

/-- The single append of a package uid to one resource's `for_packages`,
as performed by `res.for_packages.append(uid); res.save(codebase)`.  The
source appends unconditionally (no membership check). -/
def bumpRes (p uid : String) (r : Resource) : Resource :=
  if r.path = p then { r with for_packages := r.for_packages ++ [uid] } else r

/-- Append `uid` to the `for_packages` of the resource at path `p`. -/
def appendForPackage (cb : Codebase) (p uid : String) : Codebase :=
  ⟨cb.resources.map (bumpRes p uid)⟩

/-- The companion lookup loop shared in shape by both cargo assemble
methods: `for child in parent_dir.children(codebase): if child.name == nm:
res = child` — the LAST matching child wins. -/
def lastChildNamed (cb : Codebase) (dir : Resource) (nm : String) : Option Resource :=
  (childrenOf cb dir).foldl (fun acc child => if child.name = nm then some child else acc) none

/-- The three kinds of values an assemble generator yields.  Resources are
yielded by reference in the source; their final state lives in the
codebase, so the yield is recorded by path. -/
inductive AssembledItem where
  | package (p : Package)
  | dependency (d : Dependency)
  | resource (path : String)
deriving DecidableEq, Repr

/-- Python exceptions the embedded code can raise. -/
inductive PyErr where
  | attributeErrorNoneType
  | attributeErrorSetGet
  | unknownPackageDatasource
deriving DecidableEq, Repr

/-- cargo.py `handle_cargo_toml_and_lock`.  Mirrors the source order:
identity check on `cargo_data.purl` (an attribute access that raises
AttributeError when `cargo_data` is None, as happens for a Cargo.lock with
no Cargo.toml sibling), direct append of the uid to the manifest resource,
subtree walk appending the uid to every resource under the parent
directory, dependency emission from the toml data, re-yield of the toml
resource, then dependency emission from the lock data and re-yield of the
lock resource when a lock companion exists. -/
def handle_cargo_toml_and_lock (parent_dir : Resource)
    (cargo_data : Option PackageData) (cargo_resource : Option Resource)
    (cargo_lock_data : Option PackageData) (cargo_lock_resource : Option Resource)
    (cb : Codebase) : Except PyErr (List AssembledItem × Codebase) :=
  match cargo_data, cargo_resource with
  | none, _ => Except.error PyErr.attributeErrorNoneType
  | some _, none => Except.error PyErr.attributeErrorNoneType
  | some cd, some cres =>
    let minted : Option Package :=
      match cd.purl with
      | some _ => some (Package.from_package_data cd cres.path)
      | none => none
    let package_uid : Option String := minted.map Package.package_uid
    let cb1 : Codebase :=
      match package_uid with
      | some uid =>
        let cbA := appendForPackage cb cres.path uid
        (parentSubtree cbA parent_dir).foldl (fun c r => appendForPackage c r.path uid) cbA
      | none => cb
    let pkgItems : List AssembledItem := (minted.map AssembledItem.package).toList
    let tomlDeps := Dependency.from_dependent_packages cd.dependencies cres.path
      cd.datasource_id package_uid
    let items1 := pkgItems ++ tomlDeps.map AssembledItem.dependency
      ++ [AssembledItem.resource cres.path]
    match cargo_lock_resource with
    | none => Except.ok (items1, cb1)
    | some lres =>
      match cargo_lock_data with
      | none => Except.error PyErr.attributeErrorNoneType
      | some ld =>
        let lockDeps := Dependency.from_dependent_packages ld.dependencies lres.path
          ld.datasource_id package_uid
        Except.ok (items1 ++ lockDeps.map AssembledItem.dependency
          ++ [AssembledItem.resource lres.path], cb1)

/-- CargoTomlHandler.assemble: look up a Cargo.lock sibling (last child of
the parent directory with that name), load its previously captured package
data, and delegate to `handle_cargo_toml_and_lock`.  Loading stored data
that is absent models a `PackageData.from_dict(None)` failure. -/
def CargoTomlHandler.assemble (package_data : PackageData) (resource : Resource)
    (cb : Codebase) : Except PyErr (List AssembledItem × Codebase) :=
  match parentOf cb resource with
  | none => Except.error PyErr.attributeErrorNoneType
  | some parent_dir =>
    match lastChildNamed cb parent_dir "Cargo.lock" with
    | none =>
      handle_cargo_toml_and_lock parent_dir (some package_data) (some resource) none none cb
    | some lockRes =>
      match lockRes.package_data with
      | none => Except.error PyErr.attributeErrorNoneType
      | some ld =>
        handle_cargo_toml_and_lock parent_dir (some package_data) (some resource)
          (some ld) (some lockRes) cb

/-- CargoLockHandler.assemble: look up a Cargo.toml sibling (last child of
the parent directory with that name) and delegate; when no sibling exists
both `cargo_data` and `cargo_resource` are passed as None, exactly as in
the source. -/
def CargoLockHandler.assemble (package_data : PackageData) (resource : Resource)
    (cb : Codebase) : Except PyErr (List AssembledItem × Codebase) :=
  match parentOf cb resource with
  | none => Except.error PyErr.attributeErrorNoneType
  | some parent_dir =>
    match lastChildNamed cb parent_dir "Cargo.toml" with
    | none =>
      handle_cargo_toml_and_lock parent_dir none none (some package_data) (some resource) cb
    | some tomlRes =>
      match tomlRes.package_data with
      | none => Except.error PyErr.attributeErrorNoneType
      | some td =>
        handle_cargo_toml_and_lock parent_dir (some td) (some tomlRes)
          (some package_data) (some resource) cb

/-- A value in the decoded `[package]` table of a Cargo.toml (the output
of `toml.load` restricted to the shapes the parser reads): strings, string
lists, and dependency tables mapping a crate name to its requirement. -/
inductive CargoReq where
  | plain (version : String)
  | detailed (optional : Bool) (dumped : String)
deriving DecidableEq, Repr

/-- A primitive value inside a decoded TOML table.  A `detailed` cargo
requirement carries the popped `optional` flag and the opaque
`saneyaml.dump` serialization of the remaining keys (saneyaml is an
excluded collaborator; only determinism of the dump matters). -/
inductive TomlPrim where
  | str (s : String)
  | strs (ss : List String)
  | deps (entries : List (String × CargoReq))
deriving DecidableEq, Repr

/-- A top-level value of a decoded Cargo.toml document: either a plain
table of primitives (such as `[package]`) or a dependency table (such as
the top-level `[dependencies]`). -/
inductive TomlTopVal where
  | tbl (entries : List (String × TomlPrim))
  | deps (entries : List (String × CargoReq))
deriving DecidableEq, Repr

/-- A decoded TOML document: top-level key/value pairs in document order
(Python dict keys are unique). -/
def TomlDoc := List (String × TomlTopVal)

/-- Python `dict.get(k)` on an association list. -/
def assocGet {α : Type} (l : List (String × α)) (k : String) : Option α :=
  (l.find? (fun kv => decide (kv.fst = k))).map (·.snd)

/-- Read a string value out of a decoded table. -/
def tblGetStr (t : List (String × TomlPrim)) (k : String) : Option String :=
  match assocGet t k with
  | some (TomlPrim.str s) => some s
  | _ => none

/-- Read a string-list value out of a decoded table (`get(k) or []`). -/
def tblGetStrs (t : List (String × TomlPrim)) (k : String) : List String :=
  match assocGet t k with
  | some (TomlPrim.strs ss) => ss
  | _ => []

/-- cargo.py `dependency_mapper`: yield a DependentPackage per entry of a
cargo dependency table.  `is_runtime` is false for scopes ending in
dev-dependencies or build-dependencies; a plain string requirement is
never optional; a table requirement pops its `optional` key and dumps the
rest as the requirement string. -/
def dependency_mapper (dependencies : List (String × CargoReq)) (scope : String) :
    List DependentPackage :=
  let is_runtime := !(strEndsWith scope "dev-dependencies"
    || strEndsWith scope "build-dependencies")
  dependencies.map fun nr =>
    match nr.snd with
    | CargoReq.plain v =>
      { purl := some (purlString "cargo" nr.fst none)
        extracted_requirement := some v
        scope := scope
        is_runtime := is_runtime
        is_optional := false
        is_resolved := false }
    | CargoReq.detailed opt dumped =>
      { purl := some (purlString "cargo" nr.fst none)
        extracted_requirement := some dumped
        scope := scope
        is_runtime := is_runtime
        is_optional := opt
        is_resolved := false }

/-- Python `x and f-string` where x is an optional string: None gives
None, an empty string gives itself (falsy), otherwise the built string. -/
def pyAndStr (x : Option String) (y : String) : Option String :=
  match x with
  | none => none
  | some s => if s = "" then some "" else some y

/-- CargoTomlHandler.parse over a decoded Cargo.toml document.  NOTE the
dependency collection loop iterates `core_package_data.items()` — the keys
of the `[package]` table — not the top level of the document, exactly as
written in the source (cargo.py lines 66-69).  Party extraction
(party_mapper / parse_person) and license normalization are excluded
collaborators and are not modelled. -/
def CargoTomlHandler.parse (doc : TomlDoc) : List PackageData :=
  let core : List (String × TomlPrim) :=
    match assocGet doc "package" with
    | some (TomlTopVal.tbl t) => t
    | _ => []
  let name := tblGetStr core "name"
  let version := tblGetStr core "version"
  let description := ((tblGetStr core "description").getD "").trim
  let keywords := tblGetStrs core "keywords" ++ tblGetStrs core "categories"
  let dependencies := core.foldl
    (fun acc kv =>
      if strEndsWith kv.fst "dependencies" then
        acc ++ dependency_mapper
          (match kv.snd with | TomlPrim.deps d => d | _ => []) kv.fst
      else acc)
    []
  [{ datasource_id := some "cargo_toml"
     type := some "cargo"
     name := name
     version := version
     primary_language := some "Rust"
     description := some description
     keywords := keywords
     parties := []
     repository_homepage_url := pyAndStr name ("https://crates.io/crates/" ++ name.getD "")
     repository_download_url :=
       match pyAndStr name "x" with
       | none => none
       | some "" => some ""
       | some _ => pyAndStr version ("https://crates.io/api/v1/crates/"
           ++ name.getD "" ++ "/" ++ version.getD "" ++ "/download")
     api_data_url := pyAndStr name ("https://crates.io/api/v1/crates/" ++ name.getD "")
     dependencies := dependencies }]

/-- One `[[package]]` entry of a decoded Cargo.lock: its `name` and
`version` values as read by `dep.get`. -/
structure CargoLockEntry where
  name : Option String := none
  version : Option String := none
deriving DecidableEq, Repr

/-- A decoded Cargo.lock document: the `package` list (`get('package', [])`). -/
structure CargoLockDoc where
  package : List CargoLockEntry := []
deriving DecidableEq, Repr

/-- PackageURL construction used by CargoLockHandler.parse; PackageURL
requires a name, so a nameless entry yields no purl. -/
def mkCargoPurl (name version : Option String) : Option String :=
  name.map (fun n => purlString "cargo" n version)

/-- CargoLockHandler.parse: one resolved, runtime, non-optional
DependentPackage per `[[package]]` entry, and a single PackageData with no
name or version of its own. -/
def CargoLockHandler.parse (doc : CargoLockDoc) : List PackageData :=
  let dependencies := doc.package.map fun dep =>
    ({ purl := mkCargoPurl dep.name dep.version
       extracted_requirement := dep.version
       scope := "dependencies"
       is_runtime := true
       is_optional := false
       is_resolved := true } : DependentPackage)
  [{ datasource_id := some "cargo_lock"
     type := some "cargo"
     primary_language := some "Rust"
     dependencies := dependencies }]

/-- One entry of the `authors` list of a decoded bower.json: a mapping
with optional name/email/homepage keys, a plain string, or any other JSON
value (carried as its `repr`). -/
inductive BowerAuthor where
  | mapping (name email homepage : Option String)
  | str (s : String)
  | other (rep : String)
deriving DecidableEq, Repr

/-- The `repository` object of a decoded bower.json. -/
structure BowerRepo where
  rtype : Option String := none
  url : Option String := none
deriving DecidableEq, Repr

/-- A decoded bower.json document restricted to the keys the parser reads.
The `license` key is an excluded collaborator concern and is not
modelled. -/
structure BowerDoc where
  name : Option String := none
  description : Option String := none
  version : Option String := none
  keywords : List String := []
  authors : List BowerAuthor := []
  homepage : Option String := none
  repository : Option BowerRepo := none
  dependencies : List (String × String) := []
  devDependencies : List (String × String) := []
deriving DecidableEq, Repr

/-- BowerJsonHandler.parse.  NOTE the authors loop reuses the variable
`name` for each mapping-shaped author (bower.py line 74), overwriting the
top-level package name read at line 54; this is kept exactly as in the
source.  The final `yield cls(...)` constructs the record through the
missing models.py base-class constructor; modelled from the spec: the
record carries the producing handler's class-level datasource_id
("carries a datasource_id tying it back to the handler that produced it",
spec section 3), and no `type` since the source passes none. -/
def BowerJsonHandler.parse (doc : BowerDoc) : List PackageData :=
  let start : Option String × List Party := (doc.name, [])
  let folded := doc.authors.foldl
    (fun acc a =>
      match a with
      | BowerAuthor.mapping n e h =>
        (n, acc.snd ++ [{ name := n, email := e, url := h, role := "author" }])
      | BowerAuthor.str s =>
        (acc.fst, acc.snd ++ [{ name := some s, role := "author" }])
      | BowerAuthor.other rep =>
        (acc.fst, acc.snd ++ [{ name := some rep, role := "author" }]))
    start
  let vcs_url : Option String :=
    match doc.repository with
    | none => none
    | some repo =>
      match repo.rtype, repo.url with
      | some t, some u => if t = "" ∨ u = "" then none else some (t ++ "+" ++ u)
      | _, _ => none
  let deps := doc.dependencies.map fun kv =>
    ({ purl := some (purlString "bower" kv.fst none)
       scope := "dependencies"
       extracted_requirement := some kv.snd
       is_runtime := true
       is_optional := false } : DependentPackage)
  let devDeps := doc.devDependencies.map fun kv =>
    ({ purl := some (purlString "bower" kv.fst none)
       scope := "devDependencies"
       extracted_requirement := some kv.snd
       is_runtime := false
       is_optional := true } : DependentPackage)
  [{ datasource_id := some "bower_json"
     name := folded.fst
     description := doc.description
     version := doc.version
     keywords := doc.keywords
     parties := folded.snd
     homepage_url := doc.homepage
     vcs_url := vcs_url
     dependencies := deps ++ devDeps }]

/-- A decoded .ABOUT document (saneyaml.load output) restricted to the
keys the parser reads.  `owner` is kept as an optional string: about.py
replaces a non-string owner by its repr, so an absent owner becomes the
string "None". -/
structure AboutDoc where
  name : Option String := none
  version : Option String := none
  home_url : Option String := none
  homepage_url : Option String := none
  download_url : Option String := none
  copyright : Option String := none
  owner : Option String := none
  about_resource : Option String := none
deriving DecidableEq, Repr

/-- Python `a or b` over two optional strings (None and "" are falsy). -/
def pyOrStr (a b : Option String) : Option String :=
  match a with
  | some s => if s = "" then b else some s
  | none => b

/-- AboutFileHandler.parse.  The declared_license / license_expression
passthrough is an excluded collaborator concern and is not modelled. -/
def AboutFileHandler.parse (doc : AboutDoc) : List PackageData :=
  let owner_name := match doc.owner with | some s => s | none => "None"
  [{ datasource_id := some "about_file"
     type := some "about"
     name := doc.name
     version := doc.version
     copyright := doc.copyright
     parties := [{ ptype := some party_person, name := some owner_name, role := "owner" }]
     homepage_url := pyOrStr doc.home_url doc.homepage_url
     download_url := doc.download_url
     extra_data_about_resource := doc.about_resource }]

/-- AboutFileHandler.assemble: mint a Package when the data has a purl,
append its uid to the .ABOUT resource itself, then append it to every
immediate sibling whose name equals the declared about_resource.  No
subtree walk is performed.  Accessing the parent of a parentless resource
models the AttributeError the source would raise on `None.children`. -/
def AboutFileHandler.assemble (package_data : PackageData) (resource : Resource)
    (cb : Codebase) : Except PyErr (List AssembledItem × Codebase) :=
  match package_data.purl with
  | none => Except.ok ([AssembledItem.resource resource.path], cb)
  | some _ =>
    let package := Package.from_package_data package_data resource.path
    let uid := package.package_uid
    let cb1 := appendForPackage cb resource.path uid
    let items := [AssembledItem.package package, AssembledItem.resource resource.path]
    match package_data.extra_data_about_resource with
    | none => Except.ok (items, cb1)
    | some ar =>
      if ar = "" then Except.ok (items, cb1)
      else
        match parentOf cb1 resource with
        | none => Except.error PyErr.attributeErrorNoneType
        | some parent =>
          let cb2 := (childrenOf cb1 parent).foldl
            (fun c child => if child.name = ar then appendForPackage c child.path uid else c)
            cb1
          Except.ok (items, cb2)

/-- Modelled from the spec: the default `DatafileHandler.assemble`
(models.py is not under src/), used by BowerJsonHandler which overrides
neither assemble nor (effectively) the parent-tree ownership policy.
Spec section 4.3: mint at most one Package when the data has a purl,
assign the uid over the parent subtree, emit every DependentPackage as a
Dependency carrying the minted uid or null, and re-yield the origin
resource. -/
def DatafileHandler.assemble_default (package_data : PackageData) (resource : Resource)
    (cb : Codebase) : List AssembledItem × Codebase :=
  let minted : Option Package :=
    match package_data.purl with
    | some _ => some (Package.from_package_data package_data resource.path)
    | none => none
  let package_uid := minted.map Package.package_uid
  let cb1 :=
    match package_uid, parentOf cb resource with
    | some uid, some parent =>
      (parentSubtree cb parent).foldl (fun c r => appendForPackage c r.path uid) cb
    | some uid, none => appendForPackage cb resource.path uid
    | none, _ => cb
  let deps := Dependency.from_dependent_packages package_data.dependencies resource.path
    package_data.datasource_id package_uid
  ((minted.map AssembledItem.package).toList ++ deps.map AssembledItem.dependency
    ++ [AssembledItem.resource resource.path], cb1)

/-- A registered handler's declaration surface (packagedcode/__init__.py
registry entries). -/
structure DatafileHandlerInfo where
  datasource_id : String
  path_patterns : List String
  description : String := ""
deriving DecidableEq, Repr

/-- about.AboutFileHandler registry entry. -/
def aboutHandlerInfo : DatafileHandlerInfo :=
  { datasource_id := "about_file", path_patterns := ["*.ABOUT"] }

/-- cargo.CargoTomlHandler registry entry. -/
def cargoTomlHandlerInfo : DatafileHandlerInfo :=
  { datasource_id := "cargo_toml", path_patterns := ["*/Cargo.toml"]
    description := "Rust Cargo.toml package manifest" }

/-- cargo.CargoLockHandler registry entry. -/
def cargoLockHandlerInfo : DatafileHandlerInfo :=
  { datasource_id := "cargo_lock", path_patterns := ["*/Cargo.lock"]
    description := "Rust Cargo.lock dependencies lockfile" }

/-- bower.BowerJsonHandler registry entry. -/
def bowerHandlerInfo : DatafileHandlerInfo :=
  { datasource_id := "bower_json", path_patterns := ["*/bower.json", "*/.bower.json"]
    description := "Bower package" }

/-- build_gradle.BuildGradleHandler registry entry.  The build_gradle
module is not under src/; its datasource_id is taken from its module name
and is irrelevant to every claim (the registry lookup below fails before
consulting any entry). -/
def buildGradleHandlerInfo : DatafileHandlerInfo :=
  { datasource_id := "build_gradle", path_patterns := [] }

/-- The ordered active handler list of packagedcode/__init__.py
(uncommented entries only, in source order). -/
def PACKAGE_DATAFILE_HANDLERS : List DatafileHandlerInfo :=
  [aboutHandlerInfo, cargoTomlHandlerInfo, cargoLockHandlerInfo,
   bowerHandlerInfo, buildGradleHandlerInfo]

/-- A Python collection bound to HANDLER_BY_DATASOURCE_ID: either a set of
id strings or a dict from id to handler.  The distinction matters because
`{p.datasource_id for p in PACKAGE_DATAFILE_HANDLERS}` is a SET
comprehension, and sets have no `.get` method. -/
inductive PyHandlerColl where
  | pyset (elems : List String)
  | pydict (entries : List (String × DatafileHandlerInfo))
deriving DecidableEq, Repr

/-- packagedcode/__init__.py line 118: a set comprehension over the
handler ids (not a dict mapping id to handler). -/
def HANDLER_BY_DATASOURCE_ID : PyHandlerColl :=
  PyHandlerColl.pyset (PACKAGE_DATAFILE_HANDLERS.map (·.datasource_id))

/-- Python attribute/method semantics of `coll.get(key)`: a dict lookup
returns the value or None; a set has no `get` attribute and raises
AttributeError. -/
def pyCollGet (c : PyHandlerColl) (k : Option String) :
    Except PyErr (Option DatafileHandlerInfo) :=
  match c with
  | PyHandlerColl.pyset _ => Except.error PyErr.attributeErrorSetGet
  | PyHandlerColl.pydict entries => Except.ok (k.bind (assocGet entries))

/-- packagedcode/__init__.py `get_package_handler`: look the PackageData's
datasource_id up in HANDLER_BY_DATASOURCE_ID via `.get` and raise
UnknownPackageDatasource when the result is falsy. -/
def get_package_handler (package_data : PackageData) : Except PyErr DatafileHandlerInfo :=
  match pyCollGet HANDLER_BY_DATASOURCE_ID package_data.datasource_id with
  | Except.error e => Except.error e
  | Except.ok none => Except.error PyErr.unknownPackageDatasource
  | Except.ok (some h) => Except.ok h

/-- The C1 example scenario's Cargo.toml, decoded: `[package]` with name
"foo" and version "0.1.0", and a top-level `[dependencies]` table with
serde = "1.0". -/
def exTomlDoc : TomlDoc :=
  [("package", TomlTopVal.tbl [("name", TomlPrim.str "foo"),
                               ("version", TomlPrim.str "0.1.0")]),
   ("dependencies", TomlTopVal.deps [("serde", CargoReq.plain "1.0")])]

/-- The C1 example scenario's Cargo.lock, decoded: one `[[package]]` entry
serde 1.0.190. -/
def exLockDoc : CargoLockDoc :=
  { package := [{ name := some "serde", version := some "1.0.190" }] }

/-- The PackageData captured from the example Cargo.toml at parse time. -/
def exTomlPd : PackageData := (CargoTomlHandler.parse exTomlDoc).headD {}

/-- The PackageData captured from the example Cargo.lock at parse time. -/
def exLockPd : PackageData := (CargoLockHandler.parse exLockDoc).headD {}

/-- The example directory resource. -/
def exDir : Resource := { path := "mydir", name := "mydir", is_file := false }

/-- The example Cargo.toml resource, with its parse result stored. -/
def exTomlRes : Resource :=
  { path := "mydir/Cargo.toml", name := "Cargo.toml", parent_path := some "mydir"
    package_data := (CargoTomlHandler.parse exTomlDoc).head? }

/-- The example Cargo.lock resource, with its parse result stored. -/
def exLockRes : Resource :=
  { path := "mydir/Cargo.lock", name := "Cargo.lock", parent_path := some "mydir"
    package_data := (CargoLockHandler.parse exLockDoc).head? }

/-- The example scenario codebase: a directory holding Cargo.toml and
Cargo.lock, both already parsed. -/
def exCodebase : Codebase := ⟨[exDir, exTomlRes, exLockRes]⟩

/-- The package_uid minted for the example package. -/
def exUid : String := "pkg:cargo/foo@0.1.0?uid=mydir/Cargo.toml"

/-- The Package minted in the example scenario. -/
def exPackage : Package :=
  { purl := "pkg:cargo/foo@0.1.0", package_uid := exUid
    datafile_paths := ["mydir/Cargo.toml"] }

/-- The single (resolved) Dependency the code emits in the example
scenario, sourced from the Cargo.lock. -/
def exLockDep : Dependency :=
  { purl := some "pkg:cargo/serde@1.0.190", extracted_requirement := some "1.0.190"
    scope := "dependencies", is_runtime := true, is_optional := false
    is_resolved := true, datafile_path := "mydir/Cargo.lock"
    datasource_id := some "cargo_lock", package_uid := some exUid }



def loneDir : Resource := { path := "d", name := "d", is_file := false }
def loneLockRes : Resource :=
  { path := "d/Cargo.lock", name := "Cargo.lock", parent_path := some "d"
    package_data := (CargoLockHandler.parse exLockDoc).head? }
def loneCodebase : Codebase := ⟨[loneDir, loneLockRes]⟩



def exBowerDoc : BowerDoc := { dependencies := [("jquery", "^3.0.0")] }
def exBowerRes : Resource :=
  { path := "p/bower.json", name := "bower.json", parent_path := some "p" }
def exBowerCodebase : Codebase := ⟨[{ path := "p", name := "p", is_file := false }, exBowerRes]⟩


def wDir : Resource := { path := "w", name := "w", is_file := false }
def wTomlRes : Resource :=
  { path := "w/Cargo.toml", name := "Cargo.toml", parent_path := some "w"
    package_data := (CargoTomlHandler.parse exTomlDoc).head? }
def wLockDocB : CargoLockDoc :=
  { package := [{ name := some "bbb", version := some "2.0" }] }
def wLockA : Resource :=
  { path := "w/LA", name := "Cargo.lock", parent_path := some "w"
    package_data := (CargoLockHandler.parse exLockDoc).head? }
def wLockB : Resource :=
  { path := "w/LB", name := "Cargo.lock", parent_path := some "w"
    package_data := (CargoLockHandler.parse wLockDocB).head? }
def wCodebase : Codebase := ⟨[wDir, wTomlRes, wLockA, wLockB]⟩


/-- Bumping one resource's ownership list never changes its path. -/
lemma bumpRes_path (p uid : String) (r : Resource) : (bumpRes p uid r).path = r.path := by
  unfold bumpRes
  split <;> rfl

/-- Bumping one resource's ownership list never changes its name. -/
lemma bumpRes_name (p uid : String) (r : Resource) : (bumpRes p uid r).name = r.name := by
  unfold bumpRes
  split <;> rfl

/-- Bumping one resource's ownership list never changes its parent path. -/
lemma bumpRes_parent_path (p uid : String) (r : Resource) :
    (bumpRes p uid r).parent_path = r.parent_path := by
  unfold bumpRes
  split <;> rfl

/-- Bumping appends either one uid or nothing to `for_packages`. -/
lemma bumpRes_for_packages (p uid : String) (r : Resource) :
    ∃ t, (bumpRes p uid r).for_packages = r.for_packages ++ t := by
  unfold bumpRes
  split
  · exact ⟨[uid], rfl⟩
  · exact ⟨[], (List.append_nil _).symm⟩

/-- `cb` grows into `cb'` when the arena keeps the same resources in the
same positions, with the same paths, and each `for_packages` list is only
ever extended on the right. -/
def growsInto (cb cb' : Codebase) : Prop :=
  cb'.resources.length = cb.resources.length ∧
  ∀ i : Fin cb.resources.length, ∀ j : Fin cb'.resources.length, i.val = j.val →
    (cb'.resources.get j).path = (cb.resources.get i).path ∧
    ∃ t, (cb'.resources.get j).for_packages = (cb.resources.get i).for_packages ++ t

lemma growsInto_refl (cb : Codebase) : growsInto cb cb := by
  refine ⟨rfl, fun i j hij => ?_⟩
  have : i = j := Fin.ext hij
  subst this
  exact ⟨rfl, [], (List.append_nil _).symm⟩

lemma growsInto_trans {a b c : Codebase} (h1 : growsInto a b) (h2 : growsInto b c) :
    growsInto a c := by
  refine ⟨h2.1.trans h1.1, fun i k hik => ?_⟩
  have hbl : i.val < b.resources.length := by
    rw [h1.1]
    exact i.isLt
  have hmid := h1.2 i ⟨i.val, hbl⟩ rfl
  have hend := h2.2 ⟨i.val, hbl⟩ k hik
  refine ⟨hend.1.trans hmid.1, ?_⟩
  obtain ⟨t1, ht1⟩ := hmid.2
  obtain ⟨t2, ht2⟩ := hend.2
  exact ⟨t1 ++ t2, by rw [ht2, ht1, List.append_assoc]⟩

/-- Mapping a path-preserving, append-only transformation over the arena
is a growth step. -/
lemma growsInto_map (cb : Codebase) (f : Resource → Resource)
    (hf : ∀ r, (f r).path = r.path ∧ ∃ t, (f r).for_packages = r.for_packages ++ t) :
    growsInto cb ⟨cb.resources.map f⟩ := by
  refine ⟨by simp, fun i j hij => ?_⟩
  have hj : (Codebase.mk (cb.resources.map f)).resources.get j
      = f (cb.resources.get i) := by
    simp [List.get_eq_getElem, hij.symm]
  rw [hj]
  exact hf _

lemma growsInto_appendForPackage (cb : Codebase) (p uid : String) :
    growsInto cb (appendForPackage cb p uid) :=
  growsInto_map cb (bumpRes p uid)
    (fun r => ⟨bumpRes_path p uid r, bumpRes_for_packages p uid r⟩)

/-- The cargo subtree-walk fold only grows the arena. -/
lemma growsInto_foldPlain (uid : String) (l : List Resource) :
    ∀ cb : Codebase, growsInto cb (l.foldl (fun c r => appendForPackage c r.path uid) cb) := by
  induction l with
  | nil => exact fun cb => growsInto_refl cb
  | cons a t ih =>
    intro cb
    exact growsInto_trans (growsInto_appendForPackage cb a.path uid)
      (ih (appendForPackage cb a.path uid))

/-- The about sibling fold only grows the arena. -/
lemma growsInto_foldGuard (uid ar : String) (l : List Resource) :
    ∀ cb : Codebase,
      growsInto cb (l.foldl
        (fun c child => if child.name = ar then appendForPackage c child.path uid else c) cb) := by
  induction l with
  | nil => exact fun cb => growsInto_refl cb
  | cons a t ih =>
    intro cb
    by_cases ha : a.name = ar
    · simpa [ha] using growsInto_trans (growsInto_appendForPackage cb a.path uid)
        (ih (appendForPackage cb a.path uid))
    · simpa [ha] using ih cb

/-- Every successful run of the shared cargo assembly routine only grows
the arena. -/
lemma handle_cargo_grows (parent_dir : Resource) (cd : Option PackageData)
    (cres : Option Resource) (cld : Option PackageData) (clres : Option Resource)
    (cb : Codebase) (items : List AssembledItem) (cb' : Codebase)
    (h : handle_cargo_toml_and_lock parent_dir cd cres cld clres cb
      = Except.ok (items, cb')) : growsInto cb cb' := by
  cases cd with
  | none => simp [handle_cargo_toml_and_lock] at h
  | some c =>
    cases cres with
    | none => simp [handle_cargo_toml_and_lock] at h
    | some cr =>
      have hgrow : ∀ uid : String, growsInto cb
          ((parentSubtree (appendForPackage cb cr.path uid) parent_dir).foldl
            (fun c r => appendForPackage c r.path uid) (appendForPackage cb cr.path uid)) :=
        fun uid => growsInto_trans (growsInto_appendForPackage cb cr.path uid)
          (growsInto_foldPlain uid _ _)
      cases hp : c.purl with
      | some pu =>
        simp only [handle_cargo_toml_and_lock, hp, Option.map_some'] at h
        cases clres with
        | none =>
          simp only [Except.ok.injEq, Prod.mk.injEq] at h
          obtain ⟨-, h2⟩ := h
          subst h2
          exact hgrow _
        | some lres =>
          cases cld with
          | none => simp at h
          | some ld =>
            simp only [Except.ok.injEq, Prod.mk.injEq] at h
            obtain ⟨-, h2⟩ := h
            subst h2
            exact hgrow _
      | none =>
        simp only [handle_cargo_toml_and_lock, hp, Option.map_none'] at h
        cases clres with
        | none =>
          simp only [Except.ok.injEq, Prod.mk.injEq] at h
          obtain ⟨-, h2⟩ := h
          subst h2
          exact growsInto_refl cb
        | some lres =>
          cases cld with
          | none => simp at h
          | some ld =>
            simp only [Except.ok.injEq, Prod.mk.injEq] at h
            obtain ⟨-, h2⟩ := h
            subst h2
            exact growsInto_refl cb

/-- Every successful run of AboutFileHandler.assemble only grows the
arena. -/
lemma about_assemble_grows (pd : PackageData) (resource : Resource) (cb : Codebase)
    (items : List AssembledItem) (cb' : Codebase)
    (h : AboutFileHandler.assemble pd resource cb = Except.ok (items, cb')) :
    growsInto cb cb' := by
  cases hp : pd.purl with
  | none =>
    simp only [AboutFileHandler.assemble, hp, Except.ok.injEq, Prod.mk.injEq] at h
    obtain ⟨-, h2⟩ := h
    subst h2
    exact growsInto_refl cb
  | some pu =>
    simp only [AboutFileHandler.assemble, hp] at h
    cases har : pd.extra_data_about_resource with
    | none =>
      simp only [har, Except.ok.injEq, Prod.mk.injEq] at h
      obtain ⟨-, h2⟩ := h
      subst h2
      exact growsInto_appendForPackage cb resource.path _
    | some ar =>
      simp only [har] at h
      split at h
      · simp only [Except.ok.injEq, Prod.mk.injEq] at h
        obtain ⟨-, h2⟩ := h
        subst h2
        exact growsInto_appendForPackage cb resource.path _
      · cases hpar : parentOf (appendForPackage cb resource.path
            (Package.from_package_data pd resource.path).package_uid) resource with
        | none => simp [hpar] at h
        | some parent =>
          simp only [hpar, Except.ok.injEq, Prod.mk.injEq] at h
          obtain ⟨-, h2⟩ := h
          subst h2
          exact growsInto_trans (growsInto_appendForPackage cb resource.path _)
            (growsInto_foldGuard _ ar _ _)

/-- A minimal codebase for exhibiting the duplicate append: a directory
holding a single already-parsed Cargo.toml for the crate "bar". -/
def dupTomlPd : PackageData :=
  { datasource_id := some "cargo_toml", type := some "cargo", name := some "bar"
    primary_language := some "Rust" }

/-- Directory resource of the duplicate-append scenario. -/
def dupDir : Resource := { path := "d", name := "d", is_file := false }

/-- Cargo.toml resource of the duplicate-append scenario. -/
def dupTomlRes : Resource :=
  { path := "d/Cargo.toml", name := "Cargo.toml", parent_path := some "d"
    package_data := some dupTomlPd }

/-- Codebase of the duplicate-append scenario. -/
def dupCodebase : Codebase := ⟨[dupDir, dupTomlRes]⟩

/-- The uid minted for crate "bar" in the duplicate-append scenario. -/
def dupUid : String := "pkg:cargo/bar?uid=d/Cargo.toml"

/-- The .ABOUT document of the about-file scenario: a named package whose
about_resource names the sibling file code.c. -/
def abDoc : AboutDoc :=
  { name := some "code", about_resource := some "code.c", owner := some "Jane" }

/-- The PackageData captured from the about-file scenario at parse time. -/
def abPd : PackageData := (AboutFileHandler.parse abDoc).headD {}

/-- Directory resource of the about-file scenario. -/
def abDir : Resource := { path := "q", name := "q", is_file := false }

/-- The .ABOUT resource of the about-file scenario. -/
def abRes : Resource :=
  { path := "q/code.ABOUT", name := "code.ABOUT", parent_path := some "q"
    package_data := (AboutFileHandler.parse abDoc).head? }

/-- The sibling named by about_resource. -/
def abSib : Resource := { path := "q/code.c", name := "code.c", parent_path := some "q" }

/-- An unrelated sibling that must stay untouched. -/
def abOther : Resource :=
  { path := "q/other.txt", name := "other.txt", parent_path := some "q" }

/-- Codebase of the about-file scenario. -/
def abCodebase : Codebase := ⟨[abDir, abRes, abSib, abOther]⟩

/-- The uid minted in the about-file scenario. -/
def abUid : String := "pkg:about/code?uid=q/code.ABOUT"

/-- C1: in the example scenario (Cargo.toml name foo / version 0.1.0 with
dependency serde = "1.0", sibling Cargo.lock with serde 1.0.190) the code
emits exactly one Package pkg:cargo/foo@0.1.0 but only ONE Dependency (the
resolved one from the lock): the parse step collects dependency tables
from inside the decoded `[package]` table instead of the document top
level, so the toml's unresolved serde requirement is dropped and the
claimed second Dependency record never exists.  This theorem evaluates
the code at the failing input. -/
theorem cargo_example_emits_single_dependency :
    (CargoTomlHandler.parse exTomlDoc).map (·.dependencies) = [[]] ∧
    CargoTomlHandler.assemble exTomlPd exTomlRes exCodebase =
      Except.ok ([AssembledItem.package exPackage,
                  AssembledItem.resource "mydir/Cargo.toml",
                  AssembledItem.dependency exLockDep,
                  AssembledItem.resource "mydir/Cargo.lock"],
        ⟨[{ exDir with for_packages := [exUid] },
          { exTomlRes with for_packages := [exUid, exUid] },
          { exLockRes with for_packages := [exUid] }]⟩) :=
  ⟨rfl, rfl⟩

/-- C2: for a directory holding an already-parsed Cargo.toml and
Cargo.lock, assembling from the toml side and from the lock side are the
same operation: both resolve the companion sibling, load its stored data,
and delegate to handle_cargo_toml_and_lock with identically normalized
roles, so the results (packages, the one package_uid, every Dependency
with its purl, requirement, datasource_id and datafile path, and the
final tree) coincide. -/
theorem cargo_companion_symmetry (cb : Codebase) (dir tomlRes lockRes : Resource)
    (td ld : PackageData)
    (hpt : parentOf cb tomlRes = some dir)
    (hpl : parentOf cb lockRes = some dir)
    (hlock : lastChildNamed cb dir "Cargo.lock" = some lockRes)
    (htoml : lastChildNamed cb dir "Cargo.toml" = some tomlRes)
    (htd : tomlRes.package_data = some td)
    (hld : lockRes.package_data = some ld) :
    CargoTomlHandler.assemble td tomlRes cb = CargoLockHandler.assemble ld lockRes cb := by
  unfold CargoTomlHandler.assemble CargoLockHandler.assemble
  simp only [hpt, hpl, hlock, htoml, htd, hld]

/-- Witness for C2 at the example scenario. -/
theorem cargo_companion_symmetry_witness :
    CargoTomlHandler.assemble exTomlPd exTomlRes exCodebase
      = CargoLockHandler.assemble exLockPd exLockRes exCodebase :=
  cargo_companion_symmetry exCodebase exDir exTomlRes exLockRes exTomlPd exLockPd
    (by rfl) (by rfl) (by rfl) (by rfl) (by rfl) (by rfl)

/-- C3 (amended): `for_packages` lists only ever grow — every successful
cargo or about assemble keeps every resource in place with its path and
extends its ownership list on the right.  The duplicate-suppression half
of the original claim is false: appends are unconditional (see the
counterexample theorem). -/
theorem for_packages_only_grow :
    (∀ parent_dir cd cres cld clres cb items cb',
       handle_cargo_toml_and_lock parent_dir cd cres cld clres cb
         = Except.ok (items, cb') → growsInto cb cb') ∧
    (∀ pd resource cb items cb',
       AboutFileHandler.assemble pd resource cb = Except.ok (items, cb')
         → growsInto cb cb') :=
  ⟨fun parent_dir cd cres cld clres cb items cb' h =>
     handle_cargo_grows parent_dir cd cres cld clres cb items cb' h,
   fun pd resource cb items cb' h =>
     about_assemble_grows pd resource cb items cb' h⟩

/-- Witness for C3 (amended) at the duplicate-append and about scenarios. -/
theorem for_packages_only_grow_witness :
    growsInto dupCodebase
      ⟨[{ dupDir with for_packages := [dupUid] },
        { dupTomlRes with for_packages := [dupUid, dupUid] }]⟩ ∧
    growsInto abCodebase
      ⟨[abDir, { abRes with for_packages := [abUid] },
        { abSib with for_packages := [abUid] }, abOther]⟩ :=
  ⟨for_packages_only_grow.1 dupDir (some dupTomlPd) (some dupTomlRes) none none
     dupCodebase
     [AssembledItem.package
        { purl := "pkg:cargo/bar", package_uid := dupUid
          datafile_paths := ["d/Cargo.toml"] },
      AssembledItem.resource "d/Cargo.toml"]
     ⟨[{ dupDir with for_packages := [dupUid] },
       { dupTomlRes with for_packages := [dupUid, dupUid] }]⟩ (by rfl),
   for_packages_only_grow.2 abPd abRes abCodebase
     [AssembledItem.package
        { purl := "pkg:about/code", package_uid := abUid
          datafile_paths := ["q/code.ABOUT"] },
      AssembledItem.resource "q/code.ABOUT"]
     ⟨[abDir, { abRes with for_packages := [abUid] },
       { abSib with for_packages := [abUid] }, abOther]⟩ (by rfl)⟩

/-- Counterexample to C3 as stated: a single cargo assemble appends the
minted package_uid to the manifest resource twice — once directly and once
during the parent-subtree walk — leaving a duplicate uid in its
for_packages. -/
theorem cargo_assemble_duplicates_uid :
    CargoTomlHandler.assemble dupTomlPd dupTomlRes dupCodebase =
      Except.ok ([AssembledItem.package
          { purl := "pkg:cargo/bar", package_uid := dupUid
            datafile_paths := ["d/Cargo.toml"] },
        AssembledItem.resource "d/Cargo.toml"],
        ⟨[{ dupDir with for_packages := [dupUid] },
          { dupTomlRes with for_packages := [dupUid, dupUid] }]⟩) ∧
    ¬ [dupUid, dupUid].Nodup :=
  ⟨rfl, by simp⟩

/-- C4: a Cargo.lock with no Cargo.toml sibling does not yield unrooted
dependencies — CargoLockHandler.assemble passes cargo_data=None into
handle_cargo_toml_and_lock, whose identity check dereferences
cargo_data.purl and raises AttributeError; the lock's dependencies are
lost.  This theorem evaluates the code at the failing input. -/
theorem lone_cargo_lock_assemble_raises :
    CargoLockHandler.assemble exLockPd loneLockRes loneCodebase
      = Except.error PyErr.attributeErrorNoneType ∧
    exLockPd.dependencies ≠ [] :=
  ⟨rfl, by simp [exLockPd, CargoLockHandler.parse, exLockDoc]⟩

/-- C5: get_package_handler can neither return a handler nor raise
UnknownPackageDatasource: HANDLER_BY_DATASOURCE_ID is built by a SET
comprehension over handler ids, and calling .get on a set raises
AttributeError for every input — including a datasource_id such as
cargo_toml that is declared by a registered handler. -/
theorem get_package_handler_always_raises_attribute_error :
    (∀ pd : PackageData,
       get_package_handler pd = Except.error PyErr.attributeErrorSetGet) ∧
    "cargo_toml" ∈ PACKAGE_DATAFILE_HANDLERS.map (·.datasource_id) :=
  ⟨fun _ => rfl, by simp [PACKAGE_DATAFILE_HANDLERS, cargoTomlHandlerInfo]⟩

/-- C8: a bower.json with no name and one dependency jquery "^3.0.0"
mints zero Packages and yields exactly one unrooted Dependency:
purl pkg:bower/jquery, scope "dependencies", runtime, not optional, with
package_uid null, plus the re-yielded origin resource. -/
theorem unnamed_bower_yields_unrooted_dependency :
    (BowerJsonHandler.parse exBowerDoc).map
        (fun pd => DatafileHandler.assemble_default pd exBowerRes exBowerCodebase) =
      [([AssembledItem.dependency
          { purl := some "pkg:bower/jquery", extracted_requirement := some "^3.0.0"
            scope := "dependencies", is_runtime := true, is_optional := false
            is_resolved := false, datafile_path := "p/bower.json"
            datasource_id := some "bower_json", package_uid := none },
         AssembledItem.resource "p/bower.json"], exBowerCodebase)] :=
  rfl

/-- Append `n` copies of a uid to one resource's ownership list. -/
def bumpN (uid : String) (n : Nat) (r : Resource) : Resource :=
  { r with for_packages := r.for_packages ++ List.replicate n uid }

lemma bumpN_zero (uid : String) (r : Resource) : bumpN uid 0 r = r := by
  simp [bumpN]

/-- A guarded fold of per-resource appends acts pointwise on the arena:
each resource receives one uid per matching entry of the folded list that
carries its path. -/
lemma fold_guard_resources (uid : String) (p : Resource → Prop) [DecidablePred p] :
    ∀ (l : List Resource) (cb : Codebase),
      (l.foldl (fun c r => if p r then appendForPackage c r.path uid else c) cb).resources
        = cb.resources.map (fun r0 =>
            bumpN uid (l.countP (fun r => decide (p r) && decide (r.path = r0.path))) r0) := by
  intro l
  induction l with
  | nil =>
    intro cb
    simp [bumpN_zero]
  | cons a t ih =>
    intro cb
    by_cases hpa : p a
    · simp only [List.foldl_cons, if_pos hpa]
      rw [ih (appendForPackage cb a.path uid)]
      have hres : (appendForPackage cb a.path uid).resources
          = cb.resources.map (bumpRes a.path uid) := rfl
      rw [hres, List.map_map]
      refine List.map_congr_left ?_
      intro r0 _
      simp only [Function.comp_apply, bumpRes_path, List.countP_cons]
      by_cases hpath : a.path = r0.path
      · have hcond : (decide (p a) && decide (a.path = r0.path)) = true := by
          simp [hpa, hpath]
        rw [hcond]
        simp only [if_pos rfl]
        unfold bumpN bumpRes
        rw [if_pos hpath.symm]
        simp [Nat.one_add, List.replicate_succ]
      · have hcond : (decide (p a) && decide (a.path = r0.path)) = false := by
          simp [hpath]
        rw [hcond]
        simp only [Bool.false_eq_true, if_false, Nat.add_zero]
        unfold bumpRes
        rw [if_neg (fun hh => hpath hh.symm)]
    · simp only [List.foldl_cons, if_neg hpa]
      rw [ih cb]
      refine List.map_congr_left ?_
      intro r0 _
      simp only [List.countP_cons]
      have hcond : (decide (p a) && decide (a.path = r0.path)) = false := by
        simp [hpa]
      rw [hcond]
      simp

/-- With unique paths, a path determines the resource. -/
lemma nodup_paths_inj {l : List Resource} (hnd : (l.map Resource.path).Nodup)
    {a b : Resource} (ha : a ∈ l) (hb : b ∈ l) (hab : a.path = b.path) : a = b :=
  List.inj_on_of_nodup_map hnd ha hb hab

/-- With unique paths, at most one resource satisfies any predicate that
forces a fixed path. -/
lemma countP_path_bound (x : String) (q : Resource → Bool)
    (hq : ∀ r, q r = true → r.path = x) :
    ∀ (l : List Resource), (l.map Resource.path).Nodup → l.countP q ≤ 1 := by
  intro l
  induction l with
  | nil => intro _; simp
  | cons a t ih =>
    intro hnd
    rw [List.map_cons, List.nodup_cons] at hnd
    rw [List.countP_cons]
    by_cases hqa : q a = true
    · have hzero : t.countP q = 0 := by
        rw [List.countP_eq_zero]
        intro r hr hqr
        exact hnd.1 (List.mem_map.mpr ⟨r, hr, (hq r hqr).trans (hq a hqa).symm⟩)
      simp [hqa, hzero]
    · simp only [hqa, if_false, Nat.add_zero]
      exact ih hnd.2

/-- With unique paths and a member satisfying the predicate, the count is
exactly one. -/
lemma countP_path_eq_one (x : String) (q : Resource → Bool)
    (hq : ∀ r, q r = true → r.path = x)
    {l : List Resource} (hnd : (l.map Resource.path).Nodup)
    {r0 : Resource} (hr0 : r0 ∈ l) (hq0 : q r0 = true) : l.countP q = 1 := by
  refine Nat.le_antisymm (countP_path_bound x q hq l hnd) ?_
  have : 0 < l.countP q := List.countP_pos_iff.mpr ⟨r0, hr0, hq0⟩
  omega

/-- Looking a parent up after an ownership bump finds the bumped parent. -/
lemma parentOf_appendForPackage (cb : Codebase) (p uid : String) (r : Resource) :
    parentOf (appendForPackage cb p uid) r = (parentOf cb r).map (bumpRes p uid) := by
  unfold parentOf firstAt appendForPackage
  cases hpp : r.parent_path with
  | none => rfl
  | some pp =>
    simp only [Option.some_bind]
    rw [List.find?_map]
    have : (fun r => decide (r.path = pp)) ∘ bumpRes p uid
        = fun r => decide (r.path = pp) := by
      funext r
      simp [Function.comp_apply, bumpRes_path]
    rw [this]

/-- C9: AboutFileHandler.assemble touches ownership only at the .ABOUT
resource itself and at the immediate siblings named by the declared
about_resource; every other resource of the tree keeps its for_packages
unchanged (no parent-subtree walk happens).  Stated pointwise over the
arena: each resource's ownership list is extended by the minted uid
exactly when it is the origin or a matching sibling, and by nothing
otherwise. -/
theorem about_assemble_frame
    (cb : Codebase) (pd : PackageData) (resource parent : Resource) (ar pu : String)
    (hnd : (cb.resources.map Resource.path).Nodup)
    (hres : resource ∈ cb.resources)
    (hpurl : pd.purl = some pu)
    (har : pd.extra_data_about_resource = some ar)
    (hne : ar ≠ "")
    (hpar : parentOf cb resource = some parent)
    (hname : resource.name ≠ ar) :
    ∃ cb' : Codebase,
      AboutFileHandler.assemble pd resource cb =
        Except.ok ([AssembledItem.package (Package.from_package_data pd resource.path),
                    AssembledItem.resource resource.path], cb') ∧
      cb'.resources.length = cb.resources.length ∧
      ∀ i : Fin cb.resources.length, ∀ j : Fin cb'.resources.length, i.val = j.val →
        cb'.resources.get j =
          { cb.resources.get i with
            for_packages := (cb.resources.get i).for_packages
              ++ (if (cb.resources.get i).path = resource.path
                  then [(Package.from_package_data pd resource.path).package_uid] else [])
              ++ (if (cb.resources.get i).parent_path = some parent.path
                     ∧ (cb.resources.get i).name = ar
                  then [(Package.from_package_data pd resource.path).package_uid] else []) } := by
  classical
  set uid := (Package.from_package_data pd resource.path).package_uid with huid
  set cb1 := appendForPackage cb resource.path uid with hcb1
  have hpar1 : parentOf cb1 resource = some (bumpRes resource.path uid parent) := by
    rw [hcb1, parentOf_appendForPackage, hpar]
    rfl
  set parentB := bumpRes resource.path uid parent with hparentB
  set cb2 := (childrenOf cb1 parentB).foldl
    (fun c child => if child.name = ar then appendForPackage c child.path uid else c) cb1
    with hcb2def
  have hassemble : AboutFileHandler.assemble pd resource cb =
      Except.ok ([AssembledItem.package (Package.from_package_data pd resource.path),
                  AssembledItem.resource resource.path], cb2) := by
    unfold AboutFileHandler.assemble
    simp only [hpurl, har]
    rw [if_neg hne]
    rw [← huid, ← hcb1, hpar1]
  -- pointwise description of cb2
  have hmap2 : cb2.resources = cb1.resources.map (fun r0 =>
      bumpN uid ((childrenOf cb1 parentB).countP
        (fun r => decide (r.name = ar) && decide (r.path = r0.path))) r0) := by
    rw [hcb2def]
    exact fold_guard_resources uid (fun child => child.name = ar) (childrenOf cb1 parentB) cb1
  have hmap1 : cb1.resources = cb.resources.map (bumpRes resource.path uid) := rfl
  have hcomp : cb2.resources = cb.resources.map (fun r0 =>
      bumpN uid ((childrenOf cb1 parentB).countP
        (fun r => decide (r.name = ar) && decide (r.path = r0.path)))
        (bumpRes resource.path uid r0)) := by
    rw [hmap2, hmap1, List.map_map]
    refine List.map_congr_left ?_
    intro r0 _
    simp only [Function.comp_apply, bumpRes_path]
  refine ⟨cb2, hassemble, by rw [hcomp]; simp, ?_⟩
  intro i j hij
  obtain ⟨iv, hiv⟩ := i
  obtain ⟨jv, hjv⟩ := j
  have hij2 : iv = jv := hij
  subst hij2
  set r0 := cb.resources.get ⟨iv, hiv⟩ with hr0
  have hr0mem : r0 ∈ cb.resources := List.get_mem cb.resources iv hiv
  have hgetj : cb2.resources.get ⟨iv, hjv⟩ =
      bumpN uid ((childrenOf cb1 parentB).countP
        (fun r => decide (r.name = ar) && decide (r.path = r0.path)))
        (bumpRes resource.path uid r0) := by
    simp only [hr0, List.get_eq_getElem, hcomp, List.getElem_map]
  rw [hgetj]
  -- the children count over cb1 as a count over cb
  have hcnt : (childrenOf cb1 parentB).countP
      (fun r => decide (r.name = ar) && decide (r.path = r0.path))
      = cb.resources.countP (fun r =>
          (decide (r.name = ar) && decide (r.path = r0.path))
          && decide (r.parent_path = some parent.path)) := by
    unfold childrenOf
    rw [List.countP_filter, hmap1, List.countP_map]
    refine List.countP_congr ?_
    intro r _
    simp only [Function.comp_apply, bumpRes_name, bumpRes_path, bumpRes_parent_path,
      hparentB]
  rw [hcnt]
  by_cases hpath : r0.path = resource.path
  · have hr0res : r0 = resource := nodup_paths_inj hnd hr0mem hres hpath
    have hcnt0 : cb.resources.countP (fun r =>
        (decide (r.name = ar) && decide (r.path = r0.path))
        && decide (r.parent_path = some parent.path)) = 0 := by
      rw [List.countP_eq_zero]
      intro r hr hq
      simp only [Bool.and_eq_true, decide_eq_true_eq] at hq
      have : r = r0 := nodup_paths_inj hnd hr hr0mem hq.1.2
      subst this
      rw [hr0res] at hq
      exact hname hq.1.1
    rw [hcnt0, bumpN_zero]
    unfold bumpRes
    rw [if_pos hpath]
    rw [if_pos hpath]
    have hnotsib : ¬(r0.parent_path = some parent.path ∧ r0.name = ar) := by
      intro hq
      rw [hr0res] at hq
      exact hname hq.2
    rw [if_neg hnotsib]
    simp
  · have hb : bumpRes resource.path uid r0 = r0 := by
      unfold bumpRes
      rw [if_neg hpath]
    rw [hb, if_neg hpath]
    by_cases hsib : r0.parent_path = some parent.path ∧ r0.name = ar
    · have hcnt1 : cb.resources.countP (fun r =>
          (decide (r.name = ar) && decide (r.path = r0.path))
          && decide (r.parent_path = some parent.path)) = 1 := by
        refine countP_path_eq_one r0.path _ ?_ hnd hr0mem ?_
        · intro r hq
          simp only [Bool.and_eq_true, decide_eq_true_eq] at hq
          exact hq.1.2
        · simp [hsib.1, hsib.2]
      rw [hcnt1, if_pos hsib]
      unfold bumpN
      simp
    · have hcnt0 : cb.resources.countP (fun r =>
          (decide (r.name = ar) && decide (r.path = r0.path))
          && decide (r.parent_path = some parent.path)) = 0 := by
        rw [List.countP_eq_zero]
        intro r hr hq
        simp only [Bool.and_eq_true, decide_eq_true_eq] at hq
        have : r = r0 := nodup_paths_inj hnd hr hr0mem hq.1.2
        subst this
        exact hsib ⟨hq.2, hq.1.1⟩
      rw [hcnt0, bumpN_zero, if_neg hsib]
      simp

/-- Witness for C9 at the about-file scenario: an .ABOUT for "code" with
about_resource "code.c" next to code.c and other.txt. -/
theorem about_assemble_frame_witness :
    ∃ cb' : Codebase,
      AboutFileHandler.assemble abPd abRes abCodebase =
        Except.ok ([AssembledItem.package (Package.from_package_data abPd abRes.path),
                    AssembledItem.resource abRes.path], cb') ∧
      cb'.resources.length = abCodebase.resources.length ∧
      ∀ i : Fin abCodebase.resources.length, ∀ j : Fin cb'.resources.length, i.val = j.val →
        cb'.resources.get j =
          { abCodebase.resources.get i with
            for_packages := (abCodebase.resources.get i).for_packages
              ++ (if (abCodebase.resources.get i).path = abRes.path
                  then [(Package.from_package_data abPd abRes.path).package_uid] else [])
              ++ (if (abCodebase.resources.get i).parent_path = some abDir.path
                     ∧ (abCodebase.resources.get i).name = "code.c"
                  then [(Package.from_package_data abPd abRes.path).package_uid] else []) } :=
  about_assemble_frame abCodebase abPd abRes abDir "code.c" "pkg:about/code"
    (by decide) (by decide) rfl rfl (by decide) rfl (by decide)

/-- C6: each registered handler's parse yields exactly one record, and its
datasource_id is the one the producing handler declares in the registry. -/
theorem parse_sets_declared_datasource_id :
    ∀ (td : TomlDoc) (ld : CargoLockDoc) (ad : AboutDoc) (bd : BowerDoc),
      (CargoTomlHandler.parse td).map (·.datasource_id)
        = [some cargoTomlHandlerInfo.datasource_id] ∧
      (CargoLockHandler.parse ld).map (·.datasource_id)
        = [some cargoLockHandlerInfo.datasource_id] ∧
      (AboutFileHandler.parse ad).map (·.datasource_id)
        = [some aboutHandlerInfo.datasource_id] ∧
      (BowerJsonHandler.parse bd).map (·.datasource_id)
        = [some bowerHandlerInfo.datasource_id] :=
  fun _ _ _ _ => ⟨rfl, rfl, rfl, rfl⟩

/-- The companion loop keeps the LAST matching child: once a matching
child has been seen, later non-matching children leave it in place. -/
lemma foldl_lastMatch (nm : String) :
    ∀ (l2 : List Resource) (c : Resource), (∀ x ∈ l2, x.name ≠ nm) →
      l2.foldl (fun acc child => if child.name = nm then some child else acc) (some c)
        = some c := by
  intro l2
  induction l2 with
  | nil => intro c _; rfl
  | cons x xs ih =>
    intro c hall
    have hx : x.name ≠ nm := hall x (List.mem_cons_self x xs)
    simp only [List.foldl_cons, if_neg hx]
    exact ih c (fun y hy => hall y (List.mem_cons_of_mem x hy))

/-- Decompose the companion lookup: when the children split as
`l1 ++ c :: l2` with `c` matching and nothing in `l2` matching, the
lookup returns `c`. -/
lemma lastChildNamed_eq_last (cb : Codebase) (dir c : Resource) (nm : String)
    (l1 l2 : List Resource)
    (hch : childrenOf cb dir = l1 ++ c :: l2)
    (hc : c.name = nm)
    (hl2 : ∀ x ∈ l2, x.name ≠ nm) :
    lastChildNamed cb dir nm = some c := by
  unfold lastChildNamed
  rw [hch, List.foldl_append, List.foldl_cons, if_pos hc]
  exact foldl_lastMatch nm l2 c hl2

/-- C7 (amended): with two or more same-named companion candidates in the
parent directory, the cargo companion lookup does not fall back to "no
companion": it selects the LAST matching child in directory order, and
CargoTomlHandler.assemble proceeds with that child's stored data merged. -/
theorem companion_lookup_uses_last_match (cb : Codebase) (dir tomlRes c : Resource)
    (td ld : PackageData) (l1 l2 : List Resource)
    (hpar : parentOf cb tomlRes = some dir)
    (hch : childrenOf cb dir = l1 ++ c :: l2)
    (hc : c.name = "Cargo.lock")
    (hl2 : ∀ x ∈ l2, x.name ≠ "Cargo.lock")
    (hcd : c.package_data = some ld) :
    lastChildNamed cb dir "Cargo.lock" = some c ∧
    CargoTomlHandler.assemble td tomlRes cb
      = handle_cargo_toml_and_lock dir (some td) (some tomlRes) (some ld) (some c) cb := by
  have hlast := lastChildNamed_eq_last cb dir c "Cargo.lock" l1 l2 hch hc hl2
  refine ⟨hlast, ?_⟩
  unfold CargoTomlHandler.assemble
  simp only [hpar, hlast, hcd]

/-- Witness for C7 (amended) at the two-lock scenario: the directory w
holds Cargo.toml plus two children both named Cargo.lock; the second one
(w/LB) is selected and merged. -/
theorem companion_lookup_uses_last_match_witness :
    lastChildNamed wCodebase wDir "Cargo.lock" = some wLockB ∧
    CargoTomlHandler.assemble exTomlPd wTomlRes wCodebase
      = handle_cargo_toml_and_lock wDir (some exTomlPd) (some wTomlRes)
          (some ((CargoLockHandler.parse wLockDocB).headD {})) (some wLockB) wCodebase :=
  companion_lookup_uses_last_match wCodebase wDir wTomlRes wLockB exTomlPd
    ((CargoLockHandler.parse wLockDocB).headD {}) [wTomlRes, wLockA] []
    rfl rfl rfl (by intro x hx; cases hx) rfl

/-- Counterexample to C7 as stated: with two same-named Cargo.lock
children the manifest is NOT assembled alone — the code merges the last
candidate's data (a dependency sourced from w/LB appears in the output
and w/LB is re-yielded as consumed). -/
theorem two_lock_siblings_last_is_merged :
    wLockA.name = "Cargo.lock" ∧ wLockB.name = "Cargo.lock" ∧ wLockA.path ≠ wLockB.path ∧
    CargoTomlHandler.assemble exTomlPd wTomlRes wCodebase =
      Except.ok ([AssembledItem.package
          { purl := "pkg:cargo/foo@0.1.0"
            package_uid := "pkg:cargo/foo@0.1.0?uid=w/Cargo.toml"
            datafile_paths := ["w/Cargo.toml"] },
        AssembledItem.resource "w/Cargo.toml",
        AssembledItem.dependency
          { purl := some "pkg:cargo/bbb@2.0", extracted_requirement := some "2.0"
            scope := "dependencies", is_runtime := true, is_optional := false
            is_resolved := true, datafile_path := "w/LB"
            datasource_id := some "cargo_lock"
            package_uid := some "pkg:cargo/foo@0.1.0?uid=w/Cargo.toml" },
        AssembledItem.resource "w/LB"],
       ⟨[{ wDir with for_packages := ["pkg:cargo/foo@0.1.0?uid=w/Cargo.toml"] },
         { wTomlRes with for_packages := ["pkg:cargo/foo@0.1.0?uid=w/Cargo.toml",
                                          "pkg:cargo/foo@0.1.0?uid=w/Cargo.toml"] },
         { wLockA with for_packages := ["pkg:cargo/foo@0.1.0?uid=w/Cargo.toml"] },
         { wLockB with for_packages := ["pkg:cargo/foo@0.1.0?uid=w/Cargo.toml"] }]⟩) :=
  ⟨rfl, rfl, by decide, rfl⟩

/-- The bower authors loop computes, as final `name`, the `name` value of
the last mapping-shaped author when one exists, and otherwise keeps the
initial name: the loop variable shadowing in the source makes each
mapping-shaped entry overwrite the package name. -/
lemma bower_fold_name :
    ∀ (l : List BowerAuthor) (nm : Option String) (ps : List Party),
      (l.foldl (fun acc a =>
        match a with
        | BowerAuthor.mapping n e h =>
          (n, acc.snd ++ [{ name := n, email := e, url := h, role := "author" }])
        | BowerAuthor.str s =>
          (acc.fst, acc.snd ++ [{ name := some s, role := "author" }])
        | BowerAuthor.other rep =>
          (acc.fst, acc.snd ++ [{ name := some rep, role := "author" }]))
        ((nm, ps) : Option String × List Party)).fst
      = ((l.filterMap fun a => match a with
          | BowerAuthor.mapping n _ _ => some n
          | _ => none).getLast?).getD nm := by
  intro l
  induction l with
  | nil => intro nm ps; rfl
  | cons a t ih =>
    intro nm ps
    cases a with
    | mapping n e h =>
      simp only [List.foldl_cons, List.filterMap_cons]
      rw [ih]
      cases hm : (t.filterMap fun a => match a with
          | BowerAuthor.mapping n _ _ => some n
          | _ => none) with
      | nil => simp [hm]
      | cons y ys =>
        have hne : (y :: ys) ≠ [] := by simp
        obtain ⟨z, hz⟩ := Option.isSome_iff_exists.mp (List.getLast?_isSome.mpr hne)
        simp [hm, List.getLast?_cons_cons, hz]
    | str s =>
      simp only [List.foldl_cons, List.filterMap_cons]
      rw [ih]
    | other rep =>
      simp only [List.foldl_cons, List.filterMap_cons]
      rw [ih]

/-- C10: the name of the record yielded by BowerJsonHandler.parse is the
'name' value of the last mapping-shaped entry of `authors` when any
mapping-shaped entry exists (null when that mapping has no name key), and
the manifest's top-level name only otherwise. -/
theorem bower_author_name_shadowing :
    ∀ doc : BowerDoc,
      (BowerJsonHandler.parse doc).map (·.name) =
        [((doc.authors.filterMap fun a => match a with
            | BowerAuthor.mapping n _ _ => some n
            | _ => none).getLast?).getD doc.name] := by
  intro doc
  have h := bower_fold_name doc.authors doc.name []
  exact congrArg (fun x => [x]) h
